import Mathlib

/-!
Verification development for the financial document Q&A assistant
(`financial_qa_assistant.py`).  The core of the program is embedded
shallowly: text is a list of characters, the regex patterns of the
metric extractor are embedded as dedicated matchers that reproduce the
leftmost / lazy / greedy semantics of the Python `re` module on the
concrete pattern shapes the program uses, and dictionaries are embedded
as insertion-ordered association lists.
-/

set_option maxRecDepth 20000
set_option linter.unusedVariables false

abbrev Str := List Char

/-- Embedding of Python `str.lower` (ASCII case folding). -/
def lowerStr (s : Str) : Str := s.map Char.toLower

/-- `begins p t` is true when `p` is a prefix of `t`. -/
def begins : Str → Str → Bool
  | [], _ => true
  | _ :: _, [] => false
  | c :: p, d :: t => c = d && begins p t

/-- Embedding of Python `in` on strings: `containsStr p t` is true when
`p` occurs as a contiguous substring of `t`. -/
def containsStr (p : Str) : Str → Bool
  | [] => begins p []
  | c :: t => begins p (c :: t) || containsStr p t

/-- Embedding of Python `str.find`: index of the first occurrence of
`pat` in the text, `none` when absent (Python returns `-1`). -/
def strFind (pat : Str) : Str → Option Nat
  | [] => if begins pat [] then some 0 else none
  | c :: t =>
    if begins pat (c :: t) then some 0
    else Option.map (fun n => n + 1) (strFind pat t)

/-- Insertion-ordered association list lookup (Python dict access). -/
def alookup {α : Type} : List (Str × α) → Str → Option α
  | [], _ => none
  | (k, v) :: rest, key => if k = key then some v else alookup rest key

/-- Python `key in dict`. -/
def amem {α : Type} (m : List (Str × α)) (k : Str) : Bool :=
  (alookup m k).isSome

/-- Python dict assignment `m[k] = v`: updates in place when the key is
present (keeping its position), appends otherwise. -/
def aset {α : Type} : List (Str × α) → Str → α → List (Str × α)
  | [], k, v => [(k, v)]
  | (k', v') :: rest, k, v =>
    if k' = k then (k, v) :: rest else (k', v') :: aset rest k v

abbrev MMap := List (Str × Str)

/-! ## Number tokenizer

Embedding of the numeric part of the source regexes,
`[\$]?(\d{1,3}(?:,\d{3})*(?:\.\d{2})?)`, with the greedy semantics of
the Python `re` engine.  Since the tails `(?:,\d{3})*` and
`(?:\.\d{2})?` can always match the empty string, the greedy parse
never needs to backtrack. -/

/-- `\d{1,3}` greedy: one to three leading digits. -/
def take3Digits : Str → Option (Str × Str)
  | c1 :: rest =>
    if c1.isDigit then
      match rest with
      | c2 :: rest2 =>
        if c2.isDigit then
          match rest2 with
          | c3 :: rest3 =>
            if c3.isDigit then some ([c1, c2, c3], rest3)
            else some ([c1, c2], rest2)
          | [] => some ([c1, c2], [])
        else some ([c1], rest)
      | [] => some ([c1], [])
    else none
  | [] => none

/-- `(?:,\d{3})*` greedy: comma followed by exactly three digits, repeated. -/
def commaGroups : Str → Str × Str
  | ',' :: d1 :: d2 :: d3 :: rest =>
    if d1.isDigit && d2.isDigit && d3.isDigit then
      match commaGroups rest with
      | (g, r) => (',' :: d1 :: d2 :: d3 :: g, r)
    else ([], ',' :: d1 :: d2 :: d3 :: rest)
  | cs => ([], cs)

/-- `(?:\.\d{2})?` greedy: a dot followed by exactly two digits, or nothing. -/
def decimalTail : Str → Str × Str
  | '.' :: d1 :: d2 :: rest =>
    if d1.isDigit && d2.isDigit then (['.', d1, d2], rest)
    else ([], '.' :: d1 :: d2 :: rest)
  | cs => ([], cs)

/-- The captured group `(\d{1,3}(?:,\d{3})*(?:\.\d{2})?)` at the head of
the text: returns the captured lexeme and the remaining text. -/
def parseNum (cs : Str) : Option (Str × Str) :=
  match take3Digits cs with
  | none => none
  | some (d, r1) =>
    match commaGroups r1 with
    | (g, r2) =>
      match decimalTail r2 with
      | (f, r3) => some (d ++ g ++ f, r3)

/-- `[\$]?` then the number group.  A lone `$` not followed by a digit
fails (the regex backtracks to the empty `[\$]?` and a digit is still
required). -/
def matchDollarNum (cs : Str) : Option (Str × Str) :=
  match cs with
  | '$' :: rest =>
    match parseNum rest with
    | some r => some r
    | none => parseNum cs
  | _ => parseNum cs

/-- `re.findall` of the standalone number pattern (source line 278):
scan left to right, emit each captured group, resume after the match. -/
def findNumbers : Nat → Str → List Str
  | 0, _ => []
  | _ + 1, [] => []
  | fuel + 1, c :: cs =>
    match matchDollarNum (c :: cs) with
    | some (n, rest) => n :: findNumbers fuel rest
    | none => findNumbers fuel cs

def findNumbersFull (text : Str) : List Str :=
  findNumbers (text.length + 1) text

/-! ## Phase 1: directional patterns

Embedding of the two pattern shapes of `patterns` (source lines
220–249): `(term1|…|termk).*?[\$]?(NUM)` and `[\$]?(NUM).*?(term1|…|termk)`.
The engine scans start positions left to right; at a given start the
alternatives are tried in written order; `.*?` is lazy and cannot cross
a newline. -/

/-- Lazy search (`.*?[\$]?(NUM)`): earliest match of the dollar-number
part at or after the current position, with no newline skipped. -/
def searchNum : Str → Option (Str × Str)
  | [] => none
  | c :: cs =>
    match matchDollarNum (c :: cs) with
    | some r => some r
    | none => if c = '\n' then none else searchNum cs

/-- The alternation `(t1|…|tk)` anchored at the current position:
first alternative (in written order) that is a prefix wins. -/
def altAtPos (ts : List Str) (cs : Str) : Option (Str × Str) :=
  match ts with
  | [] => none
  | t :: ts' => if begins t cs then some (t, cs.drop t.length) else altAtPos ts' cs

/-- Lazy search (`.*?(t1|…|tk)`): earliest position at or after the
current one where an alternative matches, with no newline skipped. -/
def searchAlt (ts : List Str) : Str → Option (Str × Str)
  | [] => altAtPos ts []
  | c :: cs =>
    match altAtPos ts (c :: cs) with
    | some r => some r
    | none => if c = '\n' then none else searchAlt ts cs

/-- Full term-before-number pattern anchored at the current position:
each alternative is tried in order together with its continuation
(regex backtracking across alternatives). Returns (term, number, rest). -/
def tryTermsA (ts : List Str) (cs : Str) : Option (Str × Str × Str) :=
  match ts with
  | [] => none
  | t :: ts' =>
    if begins t cs then
      match searchNum (cs.drop t.length) with
      | some (n, rest) => some (t, n, rest)
      | none => tryTermsA ts' cs
    else tryTermsA ts' cs

/-- Full number-before-term pattern anchored at the current position.
Returns (number, term, rest). -/
def tryNumB (ts : List Str) (cs : Str) : Option (Str × Str × Str) :=
  match matchDollarNum cs with
  | none => none
  | some (n, r) =>
    match searchAlt ts r with
    | none => none
    | some (t, rest) => some (n, t, rest)

/-- `re.findall` of a term-before-number pattern: the tuples are
(group 1, group 2) = (term, number). -/
def findallA (ts : List Str) : Nat → Str → List (Str × Str)
  | 0, _ => []
  | _ + 1, [] => []
  | fuel + 1, c :: cs =>
    match tryTermsA ts (c :: cs) with
    | some (t, n, rest) => (t, n) :: findallA ts fuel rest
    | none => findallA ts fuel cs

/-- `re.findall` of a number-before-term pattern: the tuples are
(group 1, group 2) = (number, term). -/
def findallB (ts : List Str) : Nat → Str → List (Str × Str)
  | 0, _ => []
  | _ + 1, [] => []
  | fuel + 1, c :: cs =>
    match tryNumB ts (c :: cs) with
    | some (n, t, rest) => (n, t) :: findallB ts fuel rest
    | none => findallB ts fuel cs

def findallAFull (ts : List Str) (tl : Str) : List (Str × Str) :=
  findallA ts (tl.length + 1) tl

def findallBFull (ts : List Str) (tl : Str) : List (Str × Str) :=
  findallB ts (tl.length + 1) tl

/-- Embedding of the validity check of source line 258:
`match[1].replace(',', '').replace('.', '').isdigit()`. -/
def validNum (s : Str) : Bool :=
  let t := s.filter (fun c => !(c = ',' || c = '.'))
  !t.isEmpty && t.all Char.isDigit

/-- Embedding of source line 261: strip one leading `$` from the value. -/
def stripDollarHead (s : Str) : Str :=
  match s with
  | '$' :: r => r
  | _ => s

/-- The selection loop of source lines 257–264: first findall tuple whose
second component passes the validity check yields the stored value. -/
def selectMatch : List (Str × Str) → Option Str
  | [] => none
  | p :: rest =>
    if validNum p.2 then some (stripDollarHead p.2) else selectMatch rest

/-- Applying one pattern of a metric's pattern list to the mapping
(the body of the `for pattern in pattern_list` loop). -/
def applyPat (m : MMap) (key : Str) (found : List (Str × Str)) : MMap :=
  match selectMatch found with
  | some v => aset m key v
  | none => m

/-- The `patterns` table of source lines 220–249: metric key, pattern-A
alternatives (term before number) and pattern-B alternatives (number
before term), in written order. -/
def patternsTable : List (Str × List Str × List Str) := [
  (("revenue").data, (["revenue", "sales", "income"]).map String.data,
    (["revenue", "sales", "income"]).map String.data),
  (("profit").data, (["profit", "net income", "net profit", "earnings"]).map String.data,
    (["profit", "net income", "net profit", "earnings"]).map String.data),
  (("expenses").data,
    (["expenses", "costs", "operating expenses", "cost of goods sold", "cogs"]).map String.data,
    (["expenses", "costs", "operating expenses"]).map String.data),
  (("assets").data, (["total assets", "assets"]).map String.data,
    (["total assets", "assets"]).map String.data),
  (("liabilities").data, (["liabilities", "debt", "total liabilities"]).map String.data,
    (["liabilities", "debt"]).map String.data),
  (("equity").data, (["equity", "shareholders equity", "owners equity"]).map String.data,
    (["equity", "shareholders equity"]).map String.data),
  (("net income").data, (["net income", "net profit", "bottom line"]).map String.data,
    (["net income", "net profit"]).map String.data)]

/-- One iteration of the phase-1 metric loop: pattern A is tried, then
pattern B (the source never breaks out of the pattern loop). -/
def phase1Step (tl : Str) (m : MMap) (e : Str × List Str × List Str) : MMap :=
  applyPat (applyPat m e.1 (findallAFull e.2.1 tl)) e.1 (findallBFull e.2.2 tl)

/-- Phase 1 of `_extract_financial_metrics_from_text` (lines 252–264). -/
def phase1 (tl : Str) : MMap :=
  patternsTable.foldl (phase1Step tl) []

/-! ## Phase 2: proximity fallback (source lines 266–299) -/

/-- The `financial_terms` proximity table of source lines 267–275. -/
def proximityTable : List (Str × List Str) := [
  (("revenue").data, (["revenue", "sales", "income", "turnover"]).map String.data),
  (("profit").data, (["profit", "net income", "net profit", "earnings"]).map String.data),
  (("expenses").data,
    (["expenses", "costs", "operating expenses", "cogs", "cost of goods sold"]).map String.data),
  (("assets").data, (["assets", "total assets", "current assets", "fixed assets"]).map String.data),
  (("liabilities").data,
    (["liabilities", "debt", "total liabilities", "current liabilities"]).map String.data),
  (("equity").data, (["equity", "shareholders equity", "owners equity"]).map String.data),
  (("net income").data, (["net income", "net profit", "bottom line"]).map String.data)]

/-- Embedding of the cleaning check of lines 296–297:
`number.replace('$', '').replace(',', '')` then
`clean_number.replace('.', '').isdigit()`. -/
def validClean (s : Str) : Bool :=
  let clean := s.filter (fun c => !(c = '$' || c = ','))
  let d := clean.filter (fun c => !(c = '.'))
  !d.isEmpty && d.all Char.isDigit

/-- The context slice of lines 288–290: `text_lower[max(0, i-100) :
min(len, i+len(n)+100)]`. -/
def windowSlice (tl : Str) (i len : Nat) : Str :=
  (tl.drop (i - 100)).take (i + len + 100 - (i - 100))

/-- The context computed for a numeric token in phase 2 (lines 284–290):
the window is centered on the FIRST occurrence of the token's lexeme in
the case-folded text, `none` when `str.find` returns `-1`. -/
def phase2Context (tl : Str) (n : Str) : Option Str :=
  Option.map (fun i => windowSlice tl i n.length) (strFind n tl)

/-- The metric loop of lines 293–299: assign the token to the first
unresolved metric with a synonym in the context window; the `break`
fires only after a successful assignment. -/
def phase2Scan : List (Str × List Str) → MMap → Str → Str → MMap
  | [], m, _, _ => m
  | (metric, terms) :: rest, m, ctx, n =>
    if terms.any (fun t => containsStr t ctx) && !amem m metric then
      if validClean n then aset m metric n
      else phase2Scan rest m ctx n
    else phase2Scan rest m ctx n

/-- Processing of one numeric token in phase 2 (lines 282–299). -/
def phase2Num (tl : Str) (m : MMap) (n : Str) : MMap :=
  match phase2Context tl n with
  | none => m
  | some ctx => phase2Scan proximityTable m ctx n

/-- Phase 2 of `_extract_financial_metrics_from_text`: tokens are taken
from the ORIGINAL text, contexts from the case-folded text. -/
def phase2 (text : Str) (m : MMap) : MMap :=
  (findNumbersFull text).foldl (phase2Num (lowerStr text)) m

/-- `_extract_financial_metrics_from_text` (source lines 214–299),
starting from an empty mapping. -/
def extractMetrics (text : Str) : MMap :=
  phase2 text (phase1 (lowerStr text))

/-! ## Column scanner `_identify_financial_data` (source lines 191–212) -/

/-- A spreadsheet cell after `pd.to_numeric(..., errors='coerce')`:
either a numeric value or a non-numeric entry (coerced to NaN and then
dropped). -/
inductive Cell where
  | num : Int → Cell
  | na : Cell
deriving DecidableEq

/-- `pd.to_numeric(df[col], errors='coerce').dropna()`. -/
def colNumeric (vs : List Cell) : List Int :=
  vs.filterMap (fun c => match c with | .num v => some v | .na => none)

/-- The `financial_terms` list of source lines 194–198. -/
def financialTermsCols : List Str :=
  (["revenue", "sales", "income", "expense", "profit", "loss",
    "asset", "liability", "equity", "cash", "balance", "ebitda",
    "cost", "margin", "gross", "net", "operating"]).map String.data

/-- The inner term loop of lines 203–212 for one string-labelled column:
every matching term re-records the column's last numeric value under the
column's (original-case) label. -/
def colTermScan : List Str → List (Str × Int) → Str → List Cell → List (Str × Int)
  | [], m, _, _ => m
  | t :: ts, m, s, vs =>
    if containsStr t (lowerStr s) then
      match (colNumeric vs).getLast? with
      | some v => colTermScan ts (aset m s v) s vs
      | none => colTermScan ts m s vs
    else colTermScan ts m s vs

/-- Processing of one column: a non-string label (`none`) is skipped by
the `isinstance` check of line 201. -/
def colStep (m : List (Str × Int)) (c : Option Str × List Cell) : List (Str × Int) :=
  match c.1 with
  | none => m
  | some s => colTermScan financialTermsCols m s c.2

/-- `_identify_financial_data`: columns are (label, values) pairs. -/
def identifyFinancialData (cols : List (Option Str × List Cell)) : List (Str × Int) :=
  cols.foldl colStep []

/-- The string labels of the columns, in order. -/
def labelsOf (cols : List (Option Str × List Cell)) : List Str :=
  cols.filterMap (fun c => c.1)

/-! ## Question router `generate_response` (source lines 307–353) -/

/-- `key.replace('_', ' ')` used in every answer template. -/
def underToSpace (k : Str) : Str :=
  k.map (fun c => if c = '_' then ' ' else c)

def tmplRevenue (k v : Str) : Str :=
  ("Based on the financial document, the ").data ++ underToSpace k ++
    (" is $").data ++ v ++ (".").data

def tmplProfit (k v : Str) : Str :=
  ("The document shows a ").data ++ underToSpace k ++ (" of $").data ++ v ++ (".").data

def tmplExpenses (k v : Str) : Str :=
  ("Total ").data ++ underToSpace k ++ (" are $").data ++ v ++
    (" according to the document.").data

def tmplAssets (k v : Str) : Str :=
  ("The document reports ").data ++ underToSpace k ++ (" of $").data ++ v ++ (".").data

def tmplLiab (k v : Str) : Str :=
  ("The document shows ").data ++ underToSpace k ++ (" of $").data ++ v ++ (".").data

def tmplEquity (k v : Str) : Str :=
  ("According to the document, ").data ++ underToSpace k ++ (" is $").data ++ v ++ (".").data

def tmplNet (k v : Str) : Str :=
  ("The document shows ").data ++ underToSpace k ++ (" of $").data ++ v ++ (".").data

/-- `any(term in question_lower for term in terms)`. -/
def anyTerm (ts : List Str) (q : Str) : Bool :=
  ts.any (fun t => containsStr t q)

/-- A branch body: the first candidate key present in the mapping yields
the rendered answer; when all are absent the branch falls through. -/
def tryKeys (tmpl : Str → Str → Str) : List Str → MMap → Option Str
  | [], _ => none
  | k :: ks, m =>
    match alookup m k with
    | some v => some (tmpl k v)
    | none => tryKeys tmpl ks m

def trig1 : List Str := (["revenue", "sales", "income", "turnover"]).map String.data
def keys1 : List Str := (["revenue", "sales", "income"]).map String.data
def trig2 : List Str :=
  (["profit", "net income", "net profit", "earnings", "bottom line"]).map String.data
def keys2 : List Str := (["profit", "net income", "net profit", "earnings"]).map String.data
def trig3 : List Str := (["expense", "cost", "spending", "cogs"]).map String.data
def keys3 : List Str := (["expenses", "costs", "operating expenses"]).map String.data
def trig4 : List Str := (["asset", "property", "equipment", "inventory"]).map String.data
def keys4 : List Str := (["assets", "total assets", "current assets"]).map String.data
def trig5 : List Str := (["liabilit", "debt", "payable", "loan"]).map String.data
def keys5 : List Str := (["liabilities", "debt", "total liabilities"]).map String.data
def trig6 : List Str := (["equity", "shareholder", "owner"]).map String.data
def keys6 : List Str := (["equity", "shareholders equity"]).map String.data
def trig7 : List Str := (["net income", "net profit"]).map String.data
def keys7 : List Str := (["net income", "net profit"]).map String.data

/-- The `if`/`elif` chain of lines 312–345: a branch whose trigger terms
match the question is entered and NO later branch is tested, even when
its candidate keys are all absent (fall-through to the listing code). -/
def routeAnswer (ql : Str) (m : MMap) : Option Str :=
  if anyTerm trig1 ql then tryKeys tmplRevenue keys1 m
  else if anyTerm trig2 ql then tryKeys tmplProfit keys2 m
  else if anyTerm trig3 ql then tryKeys tmplExpenses keys3 m
  else if anyTerm trig4 ql then tryKeys tmplAssets keys4 m
  else if anyTerm trig5 ql then tryKeys tmplLiab keys5 m
  else if anyTerm trig6 ql then tryKeys tmplEquity keys6 m
  else if anyTerm trig7 ql then tryKeys tmplNet keys7 m
  else none

/-- `"\n".join(...)`. -/
def joinWith (sep : Str) : List Str → Str
  | [] => []
  | [x] => x
  | x :: y :: ys => x ++ sep ++ joinWith sep (y :: ys)

/-- The metrics listing of lines 348–350. -/
def metricsListing (m : MMap) : Str :=
  ("I found these financial metrics in the document:\n\n").data ++
    joinWith (("\n").data)
      (m.map (fun kv => ("• **").data ++ kv.1 ++ ("**: $").data ++ kv.2)) ++
    ("\n\nYou can ask about any of these specific values.").data

/-- The default response of line 353. -/
def noDataMsg : Str :=
  ("I\x27ve analyzed the document but couldn\x27t extract specific financial metrics. The document may use different terminology. You can ask me to look for specific terms or try uploading a different financial document.").data

/-- Lines 347–353: listing when the mapping is non-empty, fixed default
message otherwise. -/
def fallbackAnswer (m : MMap) : Str :=
  if m.isEmpty then noDataMsg else metricsListing m

/-- `FinancialQASystem.generate_response(question, document_text,
financial_metrics)`. The `document_text` parameter is accepted but never
read by the source. -/
def generateResponse (question : Str) (docText : Str) (m : MMap) : Str :=
  match routeAnswer (lowerStr question) m with
  | some a => a
  | none => fallbackAnswer m

/-- The same router with the dead `net income`/`net profit` branch of
lines 342–345 removed. -/
def routeAnswerNoNet (ql : Str) (m : MMap) : Option Str :=
  if anyTerm trig1 ql then tryKeys tmplRevenue keys1 m
  else if anyTerm trig2 ql then tryKeys tmplProfit keys2 m
  else if anyTerm trig3 ql then tryKeys tmplExpenses keys3 m
  else if anyTerm trig4 ql then tryKeys tmplAssets keys4 m
  else if anyTerm trig5 ql then tryKeys tmplLiab keys5 m
  else if anyTerm trig6 ql then tryKeys tmplEquity keys6 m
  else none

/-- `generate_response` with the dead final branch removed. -/
def generateResponseNoNet (question : Str) (docText : Str) (m : MMap) : Str :=
  match routeAnswerNoNet (lowerStr question) m with
  | some a => a
  | none => fallbackAnswer m

/-- The group matched by the question, in the fixed branch order
(`none` when no trigger term occurs in the question). -/
def matchedGroup (ql : Str) : Option Nat :=
  if anyTerm trig1 ql then some 0
  else if anyTerm trig2 ql then some 1
  else if anyTerm trig3 ql then some 2
  else if anyTerm trig4 ql then some 3
  else if anyTerm trig5 ql then some 4
  else if anyTerm trig6 ql then some 5
  else if anyTerm trig7 ql then some 6
  else none

def groupKeys : List (List Str) := [keys1, keys2, keys3, keys4, keys5, keys6, keys7]

/-- Candidate metric keys of a matched group. -/
def candidatesOf (g : Nat) : List Str := groupKeys.getD g []

/-! ## Concrete documents used by the claims -/

/-- The end-to-end scenario text of the specification. -/
def exText : Str := ("Total Revenue: $1,250,000. Net Profit: $300,000.").data

def exQ : Str := ("What was the revenue?").data

/-- A text whose only directional match is number-before-term. -/
def t2Text : Str := ("500 in sales").data

/-- A number-before-term match (value 50) more than 100 characters away
from the term, plus a closer proximity candidate (value 200). -/
def t4Text : Str := ("50 ").data ++ List.replicate 150 'x' ++ (" 200 sales").data

/-- The lexeme `77` occurs twice; only the second occurrence is near a
financial term, but the first is more than 100 characters from it. -/
def t8Text : Str := ("77 ").data ++ List.replicate 150 'x' ++ (" 77 sales").data

/-- A malformed comma group right of a financial term. -/
def t7Text : Str := ("sales 1,23").data

/-- The weather question of the routing-fallback example. -/
def wq : Str := ("what is the weather").data

/-- The singleton mapping of the routing-fallback example. -/
def wm : MMap := [(("revenue").data, ("500").data)]

/-- The spreadsheet column of the column-scan example. -/
def wcols : List (Option Str × List Cell) :=
  [(some (("Revenue").data), [Cell.num 100, Cell.num 200, Cell.num 300])]

/-! ## Guarded variant of the extractor (for the no-overwrite invariant)

`extractMetricsG` is `extractMetrics` with EVERY phase-1 assignment
guarded by absence of the key (phase 2 is already guarded in the
source). Equality of the two functions states that no assignment ever
changes a value that is already present. -/

/-- `applyPat` with the assignment guarded by key absence. -/
def applyPatG (m : MMap) (key : Str) (found : List (Str × Str)) : MMap :=
  match selectMatch found with
  | some v => if amem m key then m else aset m key v
  | none => m

def phase1StepG (tl : Str) (m : MMap) (e : Str × List Str × List Str) : MMap :=
  applyPatG (applyPatG m e.1 (findallAFull e.2.1 tl)) e.1 (findallBFull e.2.2 tl)

def phase1G (tl : Str) : MMap :=
  patternsTable.foldl (phase1StepG tl) []

def extractMetricsG (text : Str) : MMap :=
  phase2 text (phase1G (lowerStr text))

/-- The keys of a mapping, in insertion order. -/
def keysOf {α : Type} (m : List (Str × α)) : List Str :=
  m.map Prod.fst

/-! # Theorems -/

/-- C10: the answer is independent of the document text: for every
question and metric mapping, any two document-text arguments yield the
same answer — `generate_response` never reads its `document_text`
parameter. -/
theorem c10_answer_independent_of_document : ∀ (q d1 d2 : Str) (m : MMap),
    generateResponse q d1 m = generateResponse q d2 m :=
  fun _ _ _ _ => rfl

/-- C1 counterexample: the claim says stored values are normalized
decimal strings with thousands separators stripped ("45,000" stored as
"45000", revenue stored as "1250000" and the answer containing
"1250000"); the code stores the matched lexeme with its commas, so the
mapping holds "45,000" (not "45000") and the answer does not contain
"1250000". -/
theorem c1_counterexample :
    alookup (extractMetrics (("Revenue: 45,000").data)) (("revenue").data)
      = some (("45,000").data)
    ∧ ¬ alookup (extractMetrics (("Revenue: 45,000").data)) (("revenue").data)
        = some (("45000").data)
    ∧ containsStr (("1250000").data)
        (generateResponse exQ exText (extractMetrics exText)) = false := by
  refine ⟨by decide, by decide, by decide⟩

/-- C1 amended: extraction stores each value as the matched numeric
lexeme with a leading currency marker stripped but thousands separators
retained; for the text "Total Revenue: $1,250,000. Net Profit:
$300,000." the mapping holds revenue = "1,250,000" and profit =
"300,000", and answering "What was the revenue?" over that mapping
returns a string containing "1,250,000". -/
theorem c1_amended_raw_lexeme_stored :
    extractMetrics exText
      = [(("revenue").data, ("1,250,000").data), (("profit").data, ("300,000").data),
         (("net income").data, ("300,000").data)]
    ∧ generateResponse exQ exText (extractMetrics exText)
      = ("Based on the financial document, the revenue is $1,250,000.").data
    ∧ containsStr (("1,250,000").data)
        (generateResponse exQ exText (extractMetrics exText)) = true := by
  refine ⟨by decide, by decide, by decide⟩

/-- C2: on "500 in sales" the number-before-term pattern yields the
match ("500", "sales") with a syntactically valid number, yet phase 1
records nothing: the validity check of line 258 inspects `match[1]`,
which for this pattern shape is the TERM capture and never a digit
string; revenue = "500" is assigned only by the phase-2 proximity
fallback. -/
theorem c2_number_before_term_never_records :
    phase1 (lowerStr t2Text) = []
    ∧ findallBFull ((["revenue", "sales", "income"]).map String.data) (lowerStr t2Text)
        = [(("500").data, ("sales").data)]
    ∧ validNum (("500").data) = true
    ∧ validNum (("sales").data) = false
    ∧ extractMetrics t2Text = [(("revenue").data, ("500").data)] := by
  refine ⟨by decide, by decide, by decide, by decide, by decide⟩

/-- C4: on a text holding both a number-before-term directional match
(value "50") and a proximity-only candidate (value "200") for the
revenue metric, the stored value is the proximity candidate "200", not
the directional match's "50": the directional match never records
because its validity check reads the term capture. -/
theorem c4_directional_match_loses_to_proximity :
    (findallBFull ((["revenue", "sales", "income"]).map String.data)
        (lowerStr t4Text)).head? = some ((("50").data), (("sales").data))
    ∧ phase1 (lowerStr t4Text) = []
    ∧ alookup (extractMetrics t4Text) (("revenue").data) = some (("200").data)
    ∧ (("200").data) ≠ (("50").data) := by
  refine ⟨by decide, by decide, by decide, by decide⟩

/-- C7 counterexample: the claim says a malformed comma group such as
"1,23" is rejected entirely and never partially matched as a shorter
number; the unanchored pattern in fact matches "1" and "23", and over
the text "sales 1,23" extraction stores the partial match "1" for
revenue. -/
theorem c7_counterexample :
    findNumbersFull (("1,23").data) = [("1").data, ("23").data]
    ∧ findNumbersFull (("1,23").data) ≠ []
    ∧ alookup (extractMetrics t7Text) (("revenue").data) = some (("1").data) := by
  refine ⟨by decide, by decide, by decide⟩

/-! ## Helper lemmas for the no-overwrite invariant (C3) -/

theorem altAtPos_mem : ∀ (ts : List Str) (cs : Str) (t r : Str),
    altAtPos ts cs = some (t, r) → t ∈ ts := by
  intro ts
  induction ts with
  | nil => intro cs t r h; simp [altAtPos] at h
  | cons t0 ts' ih =>
    intro cs t r h
    by_cases hb : begins t0 cs = true
    · simp [altAtPos, hb] at h
      simp [h.1]
    · simp [altAtPos, hb] at h
      exact List.mem_cons_of_mem t0 (ih cs t r h)

theorem searchAlt_mem (ts : List Str) : ∀ (cs : Str) (t r : Str),
    searchAlt ts cs = some (t, r) → t ∈ ts := by
  intro cs
  induction cs with
  | nil => intro t r h; exact altAtPos_mem ts [] t r h
  | cons c cs' ih =>
    intro t r h
    rw [searchAlt] at h
    cases hp : altAtPos ts (c :: cs') with
    | some q => rw [hp] at h; simp at h; exact altAtPos_mem ts (c :: cs') t r (h ▸ hp)
    | none =>
      rw [hp] at h
      simp at h
      by_cases hc : c = '\n'
      · simp [hc] at h
      · simp [hc] at h; exact ih t r h

theorem tryNumB_snd_mem (ts : List Str) (cs : Str) (n t rest : Str)
    (h : tryNumB ts cs = some (n, t, rest)) : t ∈ ts := by
  rw [tryNumB] at h
  cases hm : matchDollarNum cs with
  | none => rw [hm] at h; simp at h
  | some p =>
    obtain ⟨n', r⟩ := p
    rw [hm] at h
    simp only [] at h
    cases hs : searchAlt ts r with
    | none => rw [hs] at h; simp at h
    | some q =>
      obtain ⟨t', rest'⟩ := q
      rw [hs] at h
      simp at h
      obtain ⟨-, h2, -⟩ := h
      exact h2 ▸ searchAlt_mem ts r t' rest' hs

theorem findallB_snd_mem (ts : List Str) : ∀ (fuel : Nat) (cs : Str) (n t : Str),
    (n, t) ∈ findallB ts fuel cs → t ∈ ts := by
  intro fuel
  induction fuel with
  | zero => intro cs n t h; simp [findallB] at h
  | succ f ih =>
    intro cs n t h
    cases cs with
    | nil => simp [findallB] at h
    | cons c cs' =>
      rw [findallB] at h
      cases htry : tryNumB ts (c :: cs') with
      | none => rw [htry] at h; exact ih cs' n t h
      | some p =>
        obtain ⟨n', t', rest⟩ := p
        rw [htry] at h
        simp at h
        rcases h with ⟨-, ht⟩ | h
        · exact ht ▸ tryNumB_snd_mem ts (c :: cs') n' t' rest htry
        · exact ih rest n t h

theorem selectMatch_none_of : ∀ (ms : List (Str × Str)),
    (∀ p ∈ ms, validNum p.2 = false) → selectMatch ms = none := by
  intro ms
  induction ms with
  | nil => intro _; rfl
  | cons p rest ih =>
    intro h
    have hp := h p (List.mem_cons_self p rest)
    rw [selectMatch, hp]
    simp
    exact ih (fun q hq => h q (List.mem_cons_of_mem p hq))

/-- The number-before-term pattern never contributes a value: the
stored candidate is always the term capture, which never passes the
digit check. -/
theorem applyPat_findallB_id (m : MMap) (key : Str) (ts : List Str) (tl : Str)
    (hts : ∀ t ∈ ts, validNum t = false) :
    applyPat m key (findallBFull ts tl) = m := by
  have hnone : selectMatch (findallBFull ts tl) = none := by
    apply selectMatch_none_of
    intro p hp
    obtain ⟨n, t⟩ := p
    exact hts t (findallB_snd_mem ts (tl.length + 1) tl n t hp)
  simp [applyPat, hnone]

theorem applyPatG_findallB_id (m : MMap) (key : Str) (ts : List Str) (tl : Str)
    (hts : ∀ t ∈ ts, validNum t = false) :
    applyPatG m key (findallBFull ts tl) = m := by
  have hnone : selectMatch (findallBFull ts tl) = none := by
    apply selectMatch_none_of
    intro p hp
    obtain ⟨n, t⟩ := p
    exact hts t (findallB_snd_mem ts (tl.length + 1) tl n t hp)
  simp [applyPatG, hnone]

theorem alookup_aset_ne {α : Type} (m : List (Str × α)) (k k' : Str) (v : α)
    (h : k' ≠ k) : alookup (aset m k v) k' = alookup m k' := by
  have hkk : ¬ (k = k') := fun hh => h hh.symm
  induction m with
  | nil => simp [aset, alookup, hkk]
  | cons p rest ih =>
    obtain ⟨k0, v0⟩ := p
    by_cases h0 : k0 = k
    · have h0' : ¬ (k0 = k') := by rw [h0]; exact hkk
      rw [aset, if_pos h0, alookup, if_neg hkk, alookup, if_neg h0']
    · rw [aset, if_neg h0, alookup, alookup]
      by_cases h1 : k0 = k'
      · rw [if_pos h1, if_pos h1]
      · rw [if_neg h1, if_neg h1, ih]

theorem amem_aset_ne {α : Type} (m : List (Str × α)) (k k' : Str) (v : α)
    (h : k' ≠ k) : amem (aset m k v) k' = amem m k' := by
  simp [amem, alookup_aset_ne m k k' v h]

theorem mem_keysOf_aset {α : Type} (m : List (Str × α)) (k k'' : Str) (v : α) :
    k'' ∈ keysOf (aset m k v) → k'' ∈ keysOf m ∨ k'' = k := by
  induction m with
  | nil =>
    intro h
    rw [aset] at h
    simp [keysOf] at h
    right; exact h
  | cons p rest ih =>
    obtain ⟨k0, v0⟩ := p
    intro h
    by_cases h0 : k0 = k
    · rw [aset, if_pos h0] at h
      simp only [keysOf, List.map_cons, List.mem_cons] at h ⊢
      rcases h with h | h
      · right; exact h
      · left; right; exact h
    · rw [aset, if_neg h0] at h
      simp only [keysOf, List.map_cons, List.mem_cons] at h ⊢
      rcases h with h | h
      · left; left; exact h
      · rcases ih h with h' | h'
        · left; right; exact h'
        · right; exact h'

theorem keysOf_nodup_aset {α : Type} (m : List (Str × α)) (k : Str) (v : α)
    (h : (keysOf m).Nodup) : (keysOf (aset m k v)).Nodup := by
  induction m with
  | nil => simp [aset, keysOf]
  | cons p rest ih =>
    obtain ⟨k0, v0⟩ := p
    have h2 : (k0 :: keysOf rest).Nodup := h
    by_cases h0 : k0 = k
    · rw [aset, if_pos h0]
      show (k :: keysOf rest).Nodup
      rw [h0] at h2
      exact h2
    · rw [aset, if_neg h0]
      show (k0 :: keysOf (aset rest k v)).Nodup
      have h3 := List.nodup_cons.mp h2
      refine List.nodup_cons.mpr ⟨?_, ih h3.2⟩
      intro hmem
      rcases mem_keysOf_aset rest k k0 v hmem with h' | h'
      · exact h3.1 h'
      · exact h0 h'

theorem foldl_pres {α β : Type} (P : β → Prop) (f : β → α → β)
    (hf : ∀ b a, P b → P (f b a)) : ∀ (l : List α) (b : β), P b → P (l.foldl f b) := by
  intro l
  induction l with
  | nil => intro b hb; exact hb
  | cons a l' ih => intro b hb; exact ih (f b a) (hf b a hb)

theorem applyPat_keys_nodup (m : MMap) (key : Str) (found : List (Str × Str))
    (h : (keysOf m).Nodup) : (keysOf (applyPat m key found)).Nodup := by
  rw [applyPat]
  cases selectMatch found with
  | none => exact h
  | some v => exact keysOf_nodup_aset m key v h

theorem phase2Scan_keys_nodup : ∀ (tbl : List (Str × List Str)) (m : MMap) (ctx n : Str),
    (keysOf m).Nodup → (keysOf (phase2Scan tbl m ctx n)).Nodup := by
  intro tbl
  induction tbl with
  | nil => intro m ctx n h; exact h
  | cons e rest ih =>
    intro m ctx n h
    obtain ⟨metric, terms⟩ := e
    rw [phase2Scan]
    by_cases hc : (terms.any (fun t => containsStr t ctx) && !amem m metric) = true
    · simp only [hc, if_true]
      by_cases hv : validClean n = true
      · simp only [hv, if_true]
        exact keysOf_nodup_aset m metric n h
      · simp only [eq_false_of_ne_true hv, if_false]
        exact ih m ctx n h
    · simp only [eq_false_of_ne_true hc, if_false]
      exact ih m ctx n h

theorem extractMetrics_keys_nodup (text : Str) :
    (keysOf (extractMetrics text)).Nodup := by
  have h1 : (keysOf (phase1 (lowerStr text))).Nodup := by
    apply foldl_pres (fun m => (keysOf m).Nodup) (phase1Step (lowerStr text))
    · intro m e h
      exact applyPat_keys_nodup _ _ _ (applyPat_keys_nodup _ _ _ h)
    · simp [keysOf]
  apply foldl_pres (fun m => (keysOf m).Nodup) (phase2Num (lowerStr text)) _ _ _ h1
  intro m n h
  rw [phase2Num]
  cases phase2Context (lowerStr text) n with
  | none => exact h
  | some ctx => exact phase2Scan_keys_nodup proximityTable m ctx n h

/-- The guarded and unguarded phase-1 folds agree whenever the keys of
the remaining metric entries are pairwise distinct and absent from the
accumulator. -/
theorem phase1_fold_eq : ∀ (es : List (Str × List Str × List Str)) (tl : Str) (m : MMap),
    (∀ e ∈ es, ∀ t ∈ e.2.2, validNum t = false) →
    (∀ e ∈ es, amem m e.1 = false) →
    (es.map (fun e => e.1)).Nodup →
    es.foldl (phase1Step tl) m = es.foldl (phase1StepG tl) m := by
  intro es
  induction es with
  | nil => intro tl m _ _ _; rfl
  | cons e rest ih =>
    intro tl m hB habs hnd
    have hBe : ∀ t ∈ e.2.2, validNum t = false :=
      hB e (List.mem_cons_self e rest)
    have habse : amem m e.1 = false := habs e (List.mem_cons_self e rest)
    have hstep : phase1Step tl m e = phase1StepG tl m e := by
      rw [phase1Step, phase1StepG, applyPat_findallB_id _ _ _ _ hBe,
        applyPatG_findallB_id _ _ _ _ hBe]
      rw [applyPat, applyPatG]
      cases selectMatch (findallAFull e.2.1 tl) with
      | none => rfl
      | some v => simp [habse]
    have hnd' : (rest.map (fun e => e.1)).Nodup := (List.nodup_cons.mp hnd).2
    have hfresh : e.1 ∉ rest.map (fun e => e.1) := (List.nodup_cons.mp hnd).1
    have habs' : ∀ e' ∈ rest, amem (phase1Step tl m e) e'.1 = false := by
      intro e' he'
      have hne : e'.1 ≠ e.1 := by
        intro hcontra
        exact hfresh (hcontra ▸ List.mem_map_of_mem (fun e => e.1) he')
      have habse' : amem m e'.1 = false := habs e' (List.mem_cons_of_mem e he')
      rw [phase1Step, applyPat_findallB_id _ _ _ _ hBe, applyPat]
      cases selectMatch (findallAFull e.2.1 tl) with
      | none => exact habse'
      | some v => rw [amem_aset_ne m e.1 e'.1 v hne]; exact habse'
    calc (e :: rest).foldl (phase1Step tl) m
        = rest.foldl (phase1Step tl) (phase1Step tl m e) := rfl
      _ = rest.foldl (phase1StepG tl) (phase1Step tl m e) := by
          exact ih tl (phase1Step tl m e)
            (fun e' he' => hB e' (List.mem_cons_of_mem e he')) habs' hnd'
      _ = rest.foldl (phase1StepG tl) (phase1StepG tl m e) := by rw [hstep]
      _ = (e :: rest).foldl (phase1StepG tl) m := rfl

/-- C3: no-overwrite invariant — guarding every assignment of the
extraction with absence of the key does not change the result (so no
later phase-1 pattern or occurrence and no phase-2 proximity token ever
changes a recorded value), and the mapping keeps at most one entry per
metric name. -/
theorem c3_no_overwrite : ∀ (text : Str),
    extractMetrics text = extractMetricsG text
    ∧ (keysOf (extractMetrics text)).Nodup := by
  intro text
  refine ⟨?_, extractMetrics_keys_nodup text⟩
  rw [extractMetrics, extractMetricsG]
  have h : phase1 (lowerStr text) = phase1G (lowerStr text) := by
    rw [phase1, phase1G]
    apply phase1_fold_eq
    · decide
    · intro e _; rfl
    · decide
  rw [h]

/-! ## Substring lemmas (for the dead net-income branch, C9) -/

theorem begins_append_right : ∀ (a b t : Str),
    begins (a ++ b) t = true → containsStr b t = true := by
  intro a
  induction a with
  | nil =>
    intro b t h
    cases t with
    | nil => exact h
    | cons c t' =>
      rw [containsStr]
      rw [List.nil_append] at h
      rw [h]
      simp
  | cons c a' ih =>
    intro b t h
    cases t with
    | nil => simp [begins] at h
    | cons d t' =>
      rw [List.cons_append, begins] at h
      simp only [Bool.and_eq_true] at h
      rw [containsStr, ih b t' h.2]
      simp

theorem containsStr_drop : ∀ (t a b : Str),
    containsStr (a ++ b) t = true → containsStr b t = true := by
  intro t
  induction t with
  | nil =>
    intro a b h
    rw [containsStr] at h ⊢
    cases a with
    | nil => exact h
    | cons c a' => simp [begins] at h
  | cons d t' ih =>
    intro a b h
    rw [containsStr] at h ⊢
    simp only [Bool.or_eq_true] at h ⊢
    rcases h with h | h
    · have hc := begins_append_right a b (d :: t') h
      rw [containsStr] at hc
      simpa using hc
    · right; exact ih a b h

/-- C9: the dedicated net-income branch of `generate_response` (lines
342–345) is dead code: a question containing "net income" also contains
"income" (a revenue-group trigger) and one containing "net profit" also
contains "profit" (a profit-group trigger), so an earlier `elif` always
fires first; removing the branch never changes the answer. -/
theorem c9_dead_net_branch : ∀ (q d : Str) (m : MMap),
    generateResponse q d m = generateResponseNoNet q d m := by
  intro q d m
  have key : ∀ ql : Str, routeAnswer ql m = routeAnswerNoNet ql m := by
    intro ql
    rw [routeAnswer, routeAnswerNoNet]
    by_cases h1 : anyTerm trig1 ql = true
    · simp only [h1, if_true]
    · simp only [eq_false_of_ne_true h1, if_false]
      by_cases h2 : anyTerm trig2 ql = true
      · simp only [h2, if_true]
      · simp only [eq_false_of_ne_true h2, if_false]
        have h7 : anyTerm trig7 ql = false := by
          by_contra hc
          have h7t : anyTerm trig7 ql = true := by
            revert hc; cases anyTerm trig7 ql <;> simp
          have h7' : containsStr (("net income").data) ql = true
              ∨ containsStr (("net profit").data) ql = true := by
            simpa [anyTerm, trig7, List.any_eq_true] using h7t
          rcases h7' with hni | hnp
          · have hic : containsStr (("income").data) ql = true := by
              have hsplit : ("net income").data = (("net ").data) ++ (("income").data) := by
                decide
              exact containsStr_drop ql (("net ").data) (("income").data) (hsplit ▸ hni)
            have : anyTerm trig1 ql = true := by
              simp only [anyTerm, trig1, List.any_eq_true]
              exact ⟨("income").data, by decide, hic⟩
            exact h1 this
          · have hpc : containsStr (("profit").data) ql = true := by
              have hsplit : ("net profit").data = (("net ").data) ++ (("profit").data) := by
                decide
              exact containsStr_drop ql (("net ").data) (("profit").data) (hsplit ▸ hnp)
            have : anyTerm trig2 ql = true := by
              simp only [anyTerm, trig2, List.any_eq_true]
              exact ⟨("profit").data, by decide, hpc⟩
            exact h2 this
        simp only [h7, if_false]
        rfl
  rw [generateResponse, generateResponseNoNet, key (lowerStr q)]

/-! ## Routing fallback (C5) -/

theorem tryKeys_none (tmpl : Str → Str → Str) : ∀ (ks : List Str) (m : MMap),
    (∀ k ∈ ks, alookup m k = none) → tryKeys tmpl ks m = none := by
  intro ks
  induction ks with
  | nil => intro m _; rfl
  | cons k ks' ih =>
    intro m h
    rw [tryKeys, h k (List.mem_cons_self k ks')]
    exact ih m (fun k' hk' => h k' (List.mem_cons_of_mem k hk'))

/-- C5: routing fallback — whenever no question-term group matches the
question, or the matched group's candidate metrics are all absent from
the mapping, `generate_response` returns the fallback: the combined
metrics listing for a non-empty mapping and the fixed no-data message
for an empty one; unrecognized terms never raise an error (the router
is a total function). -/
theorem c5_routing_fallback : ∀ (q d : Str) (m : MMap),
    (matchedGroup (lowerStr q) = none
      ∨ ∃ g, matchedGroup (lowerStr q) = some g
          ∧ ∀ k ∈ candidatesOf g, alookup m k = none) →
    generateResponse q d m = fallbackAnswer m := by
  intro q d m h
  rw [generateResponse]
  suffices hr : routeAnswer (lowerStr q) m = none by rw [hr]
  rw [routeAnswer]
  rw [matchedGroup] at h
  split_ifs at h ⊢ with h1 h2 h3 h4 h5 h6 h7
  case pos =>
    rcases h with h | ⟨g, hg, hk⟩
    · exact absurd h (by simp)
    · obtain rfl := Option.some.inj hg
      exact tryKeys_none tmplRevenue keys1 m (fun k hkk => hk k hkk)
  case pos =>
    rcases h with h | ⟨g, hg, hk⟩
    · exact absurd h (by simp)
    · obtain rfl := Option.some.inj hg
      exact tryKeys_none tmplProfit keys2 m (fun k hkk => hk k hkk)
  case pos =>
    rcases h with h | ⟨g, hg, hk⟩
    · exact absurd h (by simp)
    · obtain rfl := Option.some.inj hg
      exact tryKeys_none tmplExpenses keys3 m (fun k hkk => hk k hkk)
  case pos =>
    rcases h with h | ⟨g, hg, hk⟩
    · exact absurd h (by simp)
    · obtain rfl := Option.some.inj hg
      exact tryKeys_none tmplAssets keys4 m (fun k hkk => hk k hkk)
  case pos =>
    rcases h with h | ⟨g, hg, hk⟩
    · exact absurd h (by simp)
    · obtain rfl := Option.some.inj hg
      exact tryKeys_none tmplLiab keys5 m (fun k hkk => hk k hkk)
  case pos =>
    rcases h with h | ⟨g, hg, hk⟩
    · exact absurd h (by simp)
    · obtain rfl := Option.some.inj hg
      exact tryKeys_none tmplEquity keys6 m (fun k hkk => hk k hkk)
  case pos =>
    rcases h with h | ⟨g, hg, hk⟩
    · exact absurd h (by simp)
    · obtain rfl := Option.some.inj hg
      exact tryKeys_none tmplNet keys7 m (fun k hkk => hk k hkk)
  case neg => rfl

/-- C5 witness: the fallback theorem applied at the two concrete
examples of the claim. -/
theorem c5_witness :
    matchedGroup (lowerStr wq) = none
    ∧ generateResponse wq [] wm = fallbackAnswer wm
    ∧ containsStr (("revenue").data) (generateResponse wq [] wm) = true
    ∧ containsStr (("500").data) (generateResponse wq [] wm) = true
    ∧ generateResponse (("what is the revenue").data) [] [] = noDataMsg := by
  refine ⟨by decide, c5_routing_fallback wq [] wm (Or.inl (by decide)),
    by decide, by decide, ?_⟩
  exact c5_routing_fallback (("what is the revenue").data) [] []
    (Or.inr ⟨0, by decide, by intro k _; rfl⟩)

/-! ## Column scanner lemmas (C6) -/

theorem alookup_aset_self {α : Type} (m : List (Str × α)) (k : Str) (v : α) :
    alookup (aset m k v) k = some v := by
  induction m with
  | nil => simp [aset, alookup]
  | cons p rest ih =>
    obtain ⟨k0, v0⟩ := p
    by_cases h0 : k0 = k
    · rw [aset, if_pos h0, alookup, if_pos rfl]
    · rw [aset, if_neg h0, alookup, if_neg h0]
      exact ih

theorem colTermScan_keeps (s : Str) (vs : List Cell) (v : Int)
    (hl : (colNumeric vs).getLast? = some v) :
    ∀ (ts : List Str) (m : List (Str × Int)), alookup m s = some v →
      alookup (colTermScan ts m s vs) s = some v := by
  intro ts
  induction ts with
  | nil => intro m h; exact h
  | cons t ts' ih =>
    intro m h
    rw [colTermScan]
    by_cases hc : containsStr t (lowerStr s) = true
    · rw [if_pos hc, hl]
      exact ih (aset m s v) (alookup_aset_self m s v)
    · rw [if_neg hc]
      exact ih m h

theorem colTermScan_self (s : Str) (vs : List Cell) (v : Int)
    (hl : (colNumeric vs).getLast? = some v) :
    ∀ (ts : List Str) (m : List (Str × Int)),
      (∃ t ∈ ts, containsStr t (lowerStr s) = true) →
      alookup (colTermScan ts m s vs) s = some v := by
  intro ts
  induction ts with
  | nil => intro m h; simp at h
  | cons t ts' ih =>
    intro m h
    rw [colTermScan]
    by_cases hc : containsStr t (lowerStr s) = true
    · rw [if_pos hc, hl]
      exact colTermScan_keeps s vs v hl ts' (aset m s v) (alookup_aset_self m s v)
    · rw [if_neg hc]
      apply ih
      rcases h with ⟨u, hu, hcu⟩
      rcases List.mem_cons.mp hu with rfl | hu'
      · exact absurd hcu hc
      · exact ⟨u, hu', hcu⟩

theorem colTermScan_other (s : Str) (vs : List Cell) (k : Str) (hk : k ≠ s) :
    ∀ (ts : List Str) (m : List (Str × Int)),
      alookup (colTermScan ts m s vs) k = alookup m k := by
  intro ts
  induction ts with
  | nil => intro m; rfl
  | cons t ts' ih =>
    intro m
    rw [colTermScan]
    by_cases hc : containsStr t (lowerStr s) = true
    · rw [if_pos hc]
      cases hl : (colNumeric vs).getLast? with
      | some v =>
        have h1 : alookup (colTermScan ts' (aset m s v) s vs) k = alookup (aset m s v) k :=
          ih (aset m s v)
        rw [alookup_aset_ne m s k v hk] at h1
        exact h1
      | none => exact ih m
    · rw [if_neg hc]
      exact ih m

theorem colStep_other (m : List (Str × Int)) (c : Option Str × List Cell) (k : Str)
    (h : ∀ s, c.1 = some s → k ≠ s) :
    alookup (colStep m c) k = alookup m k := by
  rw [colStep]
  cases hc : c.1 with
  | none => rfl
  | some s => exact colTermScan_other s c.2 k (h s hc) financialTermsCols m

theorem foldl_colStep_other (k : Str) :
    ∀ (cols : List (Option Str × List Cell)) (m : List (Str × Int)),
      k ∉ labelsOf cols →
      alookup (cols.foldl colStep m) k = alookup m k := by
  intro cols
  induction cols with
  | nil => intro m _; rfl
  | cons c cols' ih =>
    intro m hno
    have hsplit : (∀ s, c.1 = some s → k ≠ s) ∧ k ∉ labelsOf cols' := by
      constructor
      · intro s hs hks
        apply hno
        rw [labelsOf, List.filterMap_cons, hs]
        show k ∈ s :: labelsOf cols'
        rw [hks]
        exact List.mem_cons_self s (labelsOf cols')
      · intro hmem
        apply hno
        rw [labelsOf, List.filterMap_cons]
        cases hc : c.1 with
        | none => exact hmem
        | some s => exact List.mem_cons_of_mem s hmem
    have h1 : (c :: cols').foldl colStep m = cols'.foldl colStep (colStep m c) := rfl
    rw [h1, ih (colStep m c) hsplit.2, colStep_other m c k hsplit.1]

/-- C6: column scan — for every string-labelled column whose case-folded
label contains a financial synonym term and whose values retain at least
one numeric entry after coercion, the LAST numeric value (in original
order) is recorded in the mapping under the column's label; in
particular a column "Revenue" with values [100, 200, 300] records 300.
The labels are assumed pairwise distinct (pandas DataFrame columns). -/
theorem c6_column_scan : ∀ (cols : List (Option Str × List Cell)) (lbl : Str)
    (vs : List Cell) (v : Int),
    (some lbl, vs) ∈ cols →
    (labelsOf cols).Nodup →
    (∃ t ∈ financialTermsCols, containsStr t (lowerStr lbl) = true) →
    (colNumeric vs).getLast? = some v →
    alookup (identifyFinancialData cols) lbl = some v := by
  have main : ∀ (cols : List (Option Str × List Cell)) (lbl : Str)
      (vs : List Cell) (v : Int) (m : List (Str × Int)),
      (some lbl, vs) ∈ cols →
      (labelsOf cols).Nodup →
      (∃ t ∈ financialTermsCols, containsStr t (lowerStr lbl) = true) →
      (colNumeric vs).getLast? = some v →
      alookup (cols.foldl colStep m) lbl = some v := by
    intro cols
    induction cols with
    | nil => intro lbl vs v m hmem _ _ _; simp at hmem
    | cons c cols' ih =>
      intro lbl vs v m hmem hnd hterm hlast
      rcases List.mem_cons.mp hmem with rfl | hmem'
      · have hlbls : labelsOf ((some lbl, vs) :: cols') = lbl :: labelsOf cols' := rfl
        rw [hlbls] at hnd
        have hfresh : lbl ∉ labelsOf cols' := (List.nodup_cons.mp hnd).1
        have h1 : ((some lbl, vs) :: cols').foldl colStep m
            = cols'.foldl colStep (colStep m (some lbl, vs)) := rfl
        rw [h1, foldl_colStep_other lbl cols' _ hfresh]
        show alookup (colTermScan financialTermsCols m lbl vs) lbl = some v
        exact colTermScan_self lbl vs v hlast financialTermsCols m hterm
      · have hnd' : (labelsOf cols').Nodup := by
          rw [labelsOf, List.filterMap_cons] at hnd
          cases hc : c.1 with
          | none => rw [hc] at hnd; exact hnd
          | some s => rw [hc] at hnd; exact (List.nodup_cons.mp hnd).2
        have h1 : (c :: cols').foldl colStep m = cols'.foldl colStep (colStep m c) := rfl
        rw [h1]
        exact ih lbl vs v (colStep m c) hmem' hnd' hterm hlast
  intro cols lbl vs v hmem hnd hterm hlast
  exact main cols lbl vs v [] hmem hnd hterm hlast

/-- C6 witness: the column-scan theorem applied at the concrete column
"Revenue" = [100, 200, 300]. -/
theorem c6_witness :
    (labelsOf wcols).Nodup
    ∧ (colNumeric [Cell.num 100, Cell.num 200, Cell.num 300]).getLast? = some 300
    ∧ alookup (identifyFinancialData wcols) (("Revenue").data) = some 300 := by
  refine ⟨by decide, by decide, ?_⟩
  exact c6_column_scan wcols (("Revenue").data)
    [Cell.num 100, Cell.num 200, Cell.num 300] 300
    (by decide) (by decide) ⟨("revenue").data, by decide, by decide⟩ (by decide)

/-! ## First-occurrence context window (C8) -/

/-- `str.find` returns the index of the FIRST occurrence: the pattern
begins there and at no earlier index. -/
theorem strFind_first (pat : Str) : ∀ (text : Str) (i : Nat),
    strFind pat text = some i →
    begins pat (text.drop i) = true ∧ ∀ j, j < i → begins pat (text.drop j) = false := by
  intro text
  induction text with
  | nil =>
    intro i h
    rw [strFind] at h
    by_cases hb : begins pat [] = true
    · rw [if_pos hb] at h
      injection h with h1
      subst h1
      exact ⟨hb, fun j hj => absurd hj (Nat.not_lt_zero j)⟩
    · rw [if_neg hb] at h
      exact absurd h (by simp)
  | cons c t ih =>
    intro i h
    rw [strFind] at h
    by_cases hb : begins pat (c :: t) = true
    · rw [if_pos hb] at h
      injection h with h1
      subst h1
      exact ⟨hb, fun j hj => absurd hj (Nat.not_lt_zero j)⟩
    · rw [if_neg hb] at h
      cases hf : strFind pat t with
      | none => rw [hf] at h; simp at h
      | some i' =>
        rw [hf] at h
        simp only [Option.map_some'] at h
        injection h with h1
        subst h1
        obtain ⟨h1, h2⟩ := ih i' hf
        have hbf : begins pat (c :: t) = false := by
          revert hb; cases begins pat (c :: t) <;> simp
        refine ⟨h1, ?_⟩
        intro j hj
        cases j with
        | zero => exact hbf
        | succ j' => exact h2 j' (Nat.lt_of_succ_lt_succ hj)

/-- C8: in the phase-2 proximity fallback, the 100-character context
window for a numeric token is centered on the index returned by
searching the case-folded text for the FIRST occurrence of the token's
lexeme (and on nothing else), so repeated occurrences of the same number
string are all judged against the first occurrence's window.
Concretely, in `t8Text` the lexeme "77" occurs at index 0 and again at
index 154 right before "sales", yet both tokens are judged by the
window at index 0 (which holds no financial term), so extraction
records nothing at all. -/
theorem c8_first_occurrence_window :
    (∀ (text n : Str) (i : Nat),
      strFind n (lowerStr text) = some i →
      (begins n ((lowerStr text).drop i) = true
        ∧ ∀ j, j < i → begins n ((lowerStr text).drop j) = false)
      ∧ phase2Context (lowerStr text) n
          = some (windowSlice (lowerStr text) i n.length))
    ∧ strFind (("77").data) (lowerStr t8Text) = some 0
    ∧ begins (("77").data) ((lowerStr t8Text).drop 154) = true
    ∧ containsStr (("sales").data) (windowSlice (lowerStr t8Text) 154 2) = true
    ∧ containsStr (("sales").data) (windowSlice (lowerStr t8Text) 0 2) = false
    ∧ extractMetrics t8Text = [] := by
  refine ⟨?_, by decide, by decide, by decide, by decide, by decide⟩
  intro text n i h
  refine ⟨strFind_first n (lowerStr text) i h, ?_⟩
  rw [phase2Context, h, Option.map_some']

/-- C8 witness: the universal part applied at the concrete text and
token, with the hypothesis discharged by evaluation. -/
theorem c8_witness :
    strFind (("9").data) (lowerStr (("abcd 9 and 9").data)) = some 5
    ∧ ((begins (("9").data) ((lowerStr (("abcd 9 and 9").data)).drop 5) = true
        ∧ ∀ j, j < 5 → begins (("9").data) ((lowerStr (("abcd 9 and 9").data)).drop j) = false)
      ∧ phase2Context (lowerStr (("abcd 9 and 9").data)) (("9").data)
          = some (windowSlice (lowerStr (("abcd 9 and 9").data)) 5 1)) := by
  refine ⟨by decide, ?_⟩
  exact c8_first_occurrence_window.1 (("abcd 9 and 9").data) (("9").data) 5 (by decide)

/-- C7 amended: a well-formed token "1,234" is matched as the single
token "1,234" whose comma-stripped form is "1234"; a malformed comma
group "1,23" is not matched as one token, but its digit runs are
matched as the shorter numbers "1" and "23". -/
theorem c7_amended_partial_matches :
    findNumbersFull (("1,234").data) = [("1,234").data]
    ∧ (("1,234").data).filter (fun c => !(c = ',')) = ("1234").data
    ∧ findNumbersFull (("1,23").data) = [("1").data, ("23").data] := by
  refine ⟨by decide, by decide, by decide⟩
